import Mathlib

/-!
Verification of the torchphysics repository slice: the packaging workflow
(embedded after the solve_pde_drm.ipynb notebook) and the tutorial notebooks
(Introduction_Tutorial_PINNs.ipynb, solve_pde_drm.ipynb).

Part 1: the GitHub Actions packaging workflow "Build and upload to PyPI".
We embed the declarative YAML as Lean data, and the effect of its run steps
as small semantic functions.
-/

/-- Kinds of GitHub events that could reach a workflow; the workflow under
study reacts only to some of them. -/
inductive EventName
  | workflow_dispatch
  | release
  | push
  | pull_request
  | schedule
deriving DecidableEq

/-- A GitHub event: its name and, for events that carry one, its action
(for release events: published, created, edited, ...). -/
structure GAEvent where
  name : EventName
  action : Option String
deriving DecidableEq

/-- The on-block of the workflow:
workflow_dispatch (unconditional) and release with types [published]. -/
def workflowTriggers (e : GAEvent) : Bool :=
  match e.name with
  | .workflow_dispatch => true
  | .release => decide (e.action = some "published")
  | _ => false

/-- CPython interpreter versions appearing in the workflow. -/
inductive PyVersion
  | py37
  | py38
  | py39
  | py310
deriving DecidableEq

/-- The env entry CIBW_BUILD: cp37-star cp38-star cp39-star cp310-star,
the interpreter set configured for cibuildwheel. -/
def cibwBuildVersions : List PyVersion := [.py37, .py38, .py39, .py310]

/-- The effective (non-commented) run commands appearing in the build jobs. -/
inductive RunCommand
  | pipInstallSetuptools  -- pip install -U setuptools setuptools_scm wheel
  | setupPyBdistWheel     -- python setup.py bdist_wheel
  | setupPySdist          -- python setup.py sdist
deriving DecidableEq

/-- Which wheels a run command produces, given the interpreter installed by
the setup-python step: setup.py bdist_wheel builds exactly one wheel with the
invoking interpreter; the other commands build no wheel (the cibuildwheel
invocation in the job is commented out and therefore absent here). -/
def wheelsOf (installed : PyVersion) : RunCommand → List PyVersion
  | .setupPyBdistWheel => [installed]
  | _ => []

/-- How many source distributions a run command produces. -/
def sdistsOf : RunCommand → Nat
  | .setupPySdist => 1
  | _ => 0

-- The build_wheels job, as written in the workflow.

/-- build_wheels runs-on value. -/
def buildWheelsRunsOn : String := "ubuntu-latest"

/-- build_wheels strategy matrix os list (windows-latest is commented out). -/
def buildWheelsMatrixOs : List String := ["ubuntu-latest"]

/-- The interpreter installed by the setup-python step of build_wheels. -/
def buildWheelsPython : PyVersion := .py310

/-- The run steps of build_wheels, comments stripped. -/
def buildWheelsRunSteps : List RunCommand :=
  [.pipInstallSetuptools, .setupPyBdistWheel]

/-- The artifact name of the upload-artifact step of build_wheels, with the
matrix.os expression substituted. -/
def buildWheelsUploadName (os : String) : String := "artifact-wheel-" ++ os

/-- The path of the upload-artifact step of build_wheels. -/
def buildWheelsUploadPath : String := "./dist/*.whl"

-- The build_sdist job, as written in the workflow.

/-- build_sdist runs-on value. -/
def buildSdistRunsOn : String := "ubuntu-latest"

/-- The run steps of build_sdist. -/
def buildSdistRunSteps : List RunCommand :=
  [.pipInstallSetuptools, .setupPySdist]

/-- The artifact name of the upload-artifact step of build_sdist. -/
def buildSdistUploadName : String := "artifact-sdist"

/-- The path of the upload-artifact step of build_sdist. -/
def buildSdistUploadPath : String := "dist/*.tar.gz"

/-- All wheels built by a job: the union over its run steps. -/
def jobWheels (installed : PyVersion) (steps : List RunCommand) : List PyVersion :=
  (steps.map (wheelsOf installed)).flatten

/-- Number of sdists built by a job. -/
def jobSdists (steps : List RunCommand) : Nat :=
  (steps.map sdistsOf).sum

-- The upload_pypi job, as written in the workflow.

/-- The if-condition of upload_pypi:
github.event_name == release and github.event.action == published. -/
def uploadPypiIf (e : GAEvent) : Bool :=
  decide (e.name = .release) && decide (e.action = some "published")

/-- The download-artifact steps of upload_pypi: artifact name and target path
(the windows wheel download is commented out). -/
def uploadPypiDownloads : List (String × String) :=
  [("artifact-sdist", "dist"), ("artifact-wheel-ubuntu-latest", "dist")]

/-- The credentials of the pypa publish step of upload_pypi:
user and the name of the repository secret used as password. -/
def uploadPypiCredentials : String × String :=
  ("__token__", "secrets.upload_pypi")

/-- Artifacts uploaded during a run triggered by event e: the two build jobs
carry no if-condition, so whenever the workflow runs they run and execute
their upload-artifact steps. -/
def runUploadedArtifacts (e : GAEvent) : List String :=
  if workflowTriggers e then
    buildWheelsMatrixOs.map buildWheelsUploadName ++ [buildSdistUploadName]
  else []

/-- Artifacts published to the package index during a run triggered by event
e: upload_pypi runs only when the workflow runs and its if-condition holds,
and then publishes the contents of dist, i.e. the downloaded artifacts. -/
def runPublished (e : GAEvent) : List String :=
  if workflowTriggers e && uploadPypiIf e then
    uploadPypiDownloads.map Prod.fst
  else []

/-- Claim C1 as stated is false: cp37 is in the configured CIBW_BUILD set,
yet the build_wheels job never builds a cp37 wheel, because the cibuildwheel
invocation is commented out and the job runs setup.py bdist_wheel under the
single installed Python 3.10. -/
theorem C1_counterexample :
    PyVersion.py37 ∈ cibwBuildVersions ∧
    PyVersion.py37 ∉ jobWheels buildWheelsPython buildWheelsRunSteps := by
  decide

/-- Claim C1 (amended): the wheel-build job runs on a Linux image and builds
exactly one wheel, for the installed CPython 3.10, via setup.py bdist_wheel
(the configured CIBW_BUILD set cp37-cp310 is not honoured since cibuildwheel
is not invoked); the sdist job builds exactly one source distribution on a
Linux image. -/
theorem C1_amended_wheel_build :
    jobWheels buildWheelsPython buildWheelsRunSteps = [.py310] ∧
    buildWheelsRunsOn = "ubuntu-latest" ∧
    jobSdists buildSdistRunSteps = 1 ∧
    jobWheels buildWheelsPython buildSdistRunSteps = [] ∧
    buildSdistRunsOn = "ubuntu-latest" := by
  refine ⟨rfl, rfl, rfl, rfl, rfl⟩

/-- Claim C2: for every event, the run publishes (the sdist artifact and the
Linux wheel artifact, with the token credential from the stored secret) iff
the event is a release with action published; a manually dispatched run
uploads the build artifacts but publishes nothing. -/
theorem C2_publish_iff_release_published :
    (∀ e : GAEvent,
      runPublished e =
        (if e.name = .release ∧ e.action = some "published" then
          ["artifact-sdist", "artifact-wheel-ubuntu-latest"] else [])) ∧
    uploadPypiCredentials = ("__token__", "secrets.upload_pypi") ∧
    (∀ a : Option String,
      runUploadedArtifacts ⟨.workflow_dispatch, a⟩ =
        ["artifact-wheel-ubuntu-latest", "artifact-sdist"] ∧
      runPublished ⟨.workflow_dispatch, a⟩ = []) := by
  refine ⟨?_, rfl, ?_⟩
  · intro e
    rcases e with ⟨n, a⟩
    by_cases ha : a = some "published" <;>
      cases n <;>
        simp [runPublished, workflowTriggers, uploadPypiIf, uploadPypiDownloads, ha]
  · intro a
    constructor
    · simp [runUploadedArtifacts, workflowTriggers, buildWheelsMatrixOs,
        buildWheelsUploadName, buildSdistUploadName]
    · simp [runPublished, uploadPypiIf]

/-- Claim C3: the workflow is triggered by exactly two kinds of events: a
manual workflow dispatch, or a release event with action published. -/
theorem C3_trigger_events :
    ∀ e : GAEvent,
      workflowTriggers e = true ↔
        (e.name = .workflow_dispatch ∨
         (e.name = .release ∧ e.action = some "published")) := by
  intro e
  rcases e with ⟨n, a⟩
  cases n <;> simp [workflowTriggers]

/-- Claim C4: on every run of the workflow (whatever the trigger), the wheel
job uploads the built .whl files under the name artifact-wheel-os for each
matrix os, and the sdist job uploads the built .tar.gz under artifact-sdist. -/
theorem C4_artifact_uploads (e : GAEvent) (htrig : workflowTriggers e = true) :
    runUploadedArtifacts e =
      buildWheelsMatrixOs.map (fun os => "artifact-wheel-" ++ os) ++
        ["artifact-sdist"] ∧
    buildWheelsUploadPath = "./dist/*.whl" ∧
    buildSdistUploadPath = "dist/*.tar.gz" := by
  refine ⟨?_, rfl, rfl⟩
  simp [runUploadedArtifacts, htrig, buildWheelsUploadName, buildSdistUploadName]

/-- Witness for C4 at the concrete manual-dispatch event. -/
theorem C4_artifact_uploads_witness :
    runUploadedArtifacts ⟨.workflow_dispatch, none⟩ =
      buildWheelsMatrixOs.map (fun os => "artifact-wheel-" ++ os) ++
        ["artifact-sdist"] ∧
    buildWheelsUploadPath = "./dist/*.whl" ∧
    buildSdistUploadPath = "dist/*.tar.gz" :=
  C4_artifact_uploads ⟨.workflow_dispatch, none⟩ rfl

/-!
Part 2: the heat-equation PINN tutorial (Introduction_Tutorial_PINNs.ipynb).
Numpy/torch float arrays are embedded as lists of rationals; the arithmetic
of the notebook (16, 40, 5, 3.99, ...) is exact in the rationals.
-/

/-- Initial temperature u_0 = 16. -/
def u_0 : ℚ := 16

/-- Maximal heater temperature u_heater_max = 40. -/
def u_heater_max : ℚ := 40

/-- Time at which the heater reaches its maximal temperature. -/
def t_heater_max : ℚ := 5

/-- The masked in-place assignment a[mask] = v of numpy on arrays of equal
shape: entry i becomes v where mask i holds and is kept otherwise. -/
def maskedFill (a : List ℚ) (mask : List Bool) (v : ℚ) : List ℚ :=
  List.zipWith (fun ai m => if m then v else ai) a mask

/-- The heater temperature function h of the notebook:
ht = u_0 + (u_heater_max - u_0) / t_heater_max * t, then
ht[t greater than t_heater_max] = u_heater_max. -/
def h (t : List ℚ) : List ℚ :=
  let ht := t.map (fun ti => u_0 + (u_heater_max - u_0) / t_heater_max * ti)
  maskedFill ht (t.map (fun ti => decide (t_heater_max < ti))) u_heater_max

/-- Elementwise closed form of h, proved below to agree with it. -/
def hFormula (ti : ℚ) : ℚ := min (16 + 24 / 5 * ti) 40

lemma h_cons (a : ℚ) (t : List ℚ) :
    h (a :: t) =
      (if t_heater_max < a then u_heater_max
       else u_0 + (u_heater_max - u_0) / t_heater_max * a) :: h t := by
  by_cases hc : t_heater_max < a <;> simp [h, maskedFill, hc]

lemma h_eq_map (t : List ℚ) : h t = t.map hFormula := by
  induction t with
  | nil => simp [h, maskedFill]
  | cons a t ih =>
      rw [h_cons, ih, List.map_cons]
      congr 1
      by_cases hca : t_heater_max < a
      · rw [if_pos hca]
        have hge : (40 : ℚ) ≤ 16 + 24 / 5 * a := by
          rw [t_heater_max] at hca; linarith
        simp only [hFormula, u_heater_max, min_eq_right hge]
      · rw [if_neg hca]
        push_neg at hca
        rw [t_heater_max] at hca
        have hle : (16 : ℚ) + 24 / 5 * a ≤ 40 := by linarith
        simp only [hFormula, u_0, u_heater_max, t_heater_max, min_eq_left hle]
        norm_num

/-- Claim C6: h computes, entry by entry, the minimum of the affine ramp
16 + 24/5 * t_i and the cap 40; this elementwise map is monotone
nondecreasing, takes the value 40 at t_i = 5, is bounded above by 40, and
(as a real function) is continuous at 5. -/
theorem C6_heater_function :
    (∀ t : List ℚ, h t = t.map (fun ti => min (16 + 24 / 5 * ti) 40)) ∧
    Monotone hFormula ∧
    hFormula 5 = 40 ∧
    (∀ ti : ℚ, hFormula ti ≤ 40) ∧
    ContinuousAt (fun x : ℝ => min (16 + 24 / 5 * x) 40) 5 ∧
    (∀ ti : ℚ, (hFormula ti : ℝ) = min (16 + 24 / 5 * (ti : ℝ)) 40) := by
  refine ⟨h_eq_map, ?_, by norm_num [hFormula], ?_, ?_, ?_⟩
  · intro a b hab
    simp only [hFormula]
    exact min_le_min (by nlinarith) le_rfl
  · intro ti
    exact min_le_right _ _
  · exact Continuous.continuousAt
      ((continuous_const.add (continuous_const.mul continuous_id)).min
        continuous_const)
  · intro ti
    push_cast [hFormula]
    rfl

/-- The Dirichlet residual of the notebook: u - h(t). -/
def residual_dirichlet_condition (u t : List ℚ) : List ℚ :=
  List.zipWith (fun ui hti => ui - hti) u (h t)

/-- The Neumann residual of the notebook computes the normal derivative of u
at x through the external library (Omega.boundary.normal and
tp.utils.normal_derivative); the embedding takes that external computation as
the function normal_derivative. -/
def residual_neumann_condition (normal_derivative : List (ℚ × ℚ) → List ℚ)
    (x : List (ℚ × ℚ)) : List ℚ :=
  normal_derivative x

/-- The heater-location boolean of the notebook, per point:
(x0 greater or equal 1) and (x0 less or equal 3) and (x1 greater or equal
3.99). -/
def heaterMask (xi : ℚ × ℚ) : Bool :=
  decide (1 ≤ xi.1) && decide (xi.1 ≤ 3) && decide ((399 : ℚ) / 100 ≤ xi.2)

/-- The numpy scatter residual[mask] = src[mask] on arrays of equal shape:
entry i becomes src i where mask i holds and keeps residual i otherwise. -/
def maskedCopy : List ℚ → List Bool → List ℚ → List ℚ
  | r :: rs, m :: ms, s :: ss => (if m then s else r) :: maskedCopy rs ms ss
  | rs, _, _ => rs

/-- The combined boundary residual of the notebook: compute the Neumann
residual everywhere, then overwrite the rows at the heater location with the
Dirichlet residual rows. -/
def residual_boundary_condition (nd : List (ℚ × ℚ) → List ℚ)
    (u : List ℚ) (x : List (ℚ × ℚ)) (t : List ℚ) : List ℚ :=
  let heater_location := x.map heaterMask
  let residual := residual_neumann_condition nd x
  let residual_h := residual_dirichlet_condition u t
  maskedCopy residual heater_location residual_h

lemma maskedCopy_cons (a : ℚ) (rs : List ℚ) (mb : Bool) (ms : List Bool)
    (sb : ℚ) (ss : List ℚ) :
    maskedCopy (a :: rs) (mb :: ms) (sb :: ss) =
      (if mb then sb else a) :: maskedCopy rs ms ss := rfl

lemma maskedCopy_getD (r : List ℚ) (m : List Bool) (s : List ℚ) (i : Nat)
    (hm : i < m.length) (hs : i < s.length) (hr : i < r.length) :
    (maskedCopy r m s).getD i 0 =
      if m.getD i false then s.getD i 0 else r.getD i 0 := by
  induction r generalizing m s i with
  | nil => simp at hr
  | cons a rs ih =>
      cases m with
      | nil => simp at hm
      | cons mb ms =>
          cases s with
          | nil => simp at hs
          | cons sb ss =>
              cases i with
              | zero => simp [maskedCopy_cons]
              | succ n =>
                  rw [maskedCopy_cons]
                  simpa using ih ms ss n (by simpa using hm)
                    (by simpa using hs) (by simpa using hr)

lemma zipWith_sub_getD (a b : List ℚ) (i : Nat)
    (ha : i < a.length) (hb : i < b.length) :
    (List.zipWith (fun ui hti => ui - hti) a b).getD i 0 =
      a.getD i 0 - b.getD i 0 := by
  induction a generalizing b i with
  | nil => simp at ha
  | cons x xs ih =>
      cases b with
      | nil => simp at hb
      | cons y ys =>
          cases i with
          | zero => simp
          | succ n =>
              simpa using ih ys n (by simpa using ha) (by simpa using hb)

lemma getD_map_heaterMask (x : List (ℚ × ℚ)) (i : Nat) (hi : i < x.length) :
    (x.map heaterMask).getD i false = heaterMask (x.getD i (0, 0)) := by
  induction x generalizing i with
  | nil => simp at hi
  | cons p ps ih =>
      cases i with
      | zero => simp
      | succ n => simpa using ih n (by simpa using hi)

lemma h_length (t : List ℚ) : (h t).length = t.length := by
  rw [h_eq_map]; simp

/-- Claim C5: row i of the combined boundary residual is the Dirichlet
residual u_i - h(t_i) exactly when x_i lies in the heater strip
(1 less or equal x_i0 less or equal 3 and x_i1 greater or equal 3.99), and
is the Neumann residual (the normal derivative supplied by the external
operator) at every other row. -/
theorem C5_boundary_residual_rows (nd : List (ℚ × ℚ) → List ℚ)
    (u : List ℚ) (x : List (ℚ × ℚ)) (t : List ℚ)
    (hnd : (nd x).length = x.length) (hu : u.length = x.length)
    (ht : t.length = x.length) (i : Nat) (hi : i < x.length) :
    (residual_boundary_condition nd u x t).getD i 0 =
      if 1 ≤ (x.getD i (0, 0)).1 ∧ (x.getD i (0, 0)).1 ≤ 3 ∧
          (399 : ℚ) / 100 ≤ (x.getD i (0, 0)).2 then
        u.getD i 0 - (h t).getD i 0
      else (nd x).getD i 0 := by
  have hhm : i < (x.map heaterMask).length := by simpa using hi
  have hhs : i < (residual_dirichlet_condition u t).length := by
    simp only [residual_dirichlet_condition, List.length_zipWith, h_length]
    omega
  have hhr : i < (nd x).length := by omega
  have hmain :
      (residual_boundary_condition nd u x t).getD i 0 =
        if (x.map heaterMask).getD i false then
          (residual_dirichlet_condition u t).getD i 0
        else (nd x).getD i 0 := by
    simpa [residual_boundary_condition, residual_neumann_condition] using
      maskedCopy_getD (nd x) (x.map heaterMask)
        (residual_dirichlet_condition u t) i hhm hhs hhr
  rw [hmain, getD_map_heaterMask x i hi]
  have hdir : (residual_dirichlet_condition u t).getD i 0 =
      u.getD i 0 - (h t).getD i 0 := by
    exact zipWith_sub_getD u (h t) i (by omega) (by rw [h_length]; omega)
  by_cases hc : 1 ≤ (x.getD i (0, 0)).1 ∧ (x.getD i (0, 0)).1 ≤ 3 ∧
      (399 : ℚ) / 100 ≤ (x.getD i (0, 0)).2
  · have hmask : heaterMask (x.getD i (0, 0)) = true := by
      rw [heaterMask, Bool.and_eq_true, Bool.and_eq_true]
      exact ⟨⟨decide_eq_true hc.1, decide_eq_true hc.2.1⟩,
        decide_eq_true hc.2.2⟩
    rw [hmask, if_pos hc, if_pos rfl, hdir]
  · have hmask : heaterMask (x.getD i (0, 0)) = false := by
      rw [heaterMask]
      simp only [Bool.and_eq_false_iff, decide_eq_false_iff_not]
      push_neg at hc
      by_cases h1 : 1 ≤ (x.getD i (0, 0)).1
      · by_cases h2 : (x.getD i (0, 0)).1 ≤ 3
        · exact Or.inr (not_le.mpr (hc h1 h2))
        · exact Or.inl (Or.inr h2)
      · exact Or.inl (Or.inl h1)
    rw [hmask, if_neg hc]
    simp

/-- Witness for C5 at a concrete batch: two boundary points, the first on
the heater strip, the second away from it. -/
theorem C5_boundary_residual_rows_witness :
    (residual_boundary_condition (fun l => l.map (fun p => p.1 + p.2))
        [1, 5] [((2 : ℚ), (4 : ℚ)), (0, 0)] [0, 0]).getD 0 0 =
      1 - (h [0, 0]).getD 0 0 := by
  have hmain := C5_boundary_residual_rows
    (fun l => l.map (fun p => p.1 + p.2)) [1, 5]
    [((2 : ℚ), (4 : ℚ)), (0, 0)] [0, 0]
    (by simp) (by simp) (by simp) 0 (by simp)
  rw [hmain]
  norm_num

/-!
Part 3: the frame behaviour of h. The numpy evaluation is modelled on a
small heap of arrays: the arithmetic expression building ht allocates a
fresh array, and the masked assignment writes in place to that fresh array
only, so the argument array t is never written.
-/

/-- A reference to an array on the heap. -/
abbrev ArrRef := Nat

/-- A heap of numpy arrays, addressed by allocation order. -/
structure Heap where
  data : List (List ℚ)
deriving DecidableEq

/-- Read the array a reference points to. -/
def Heap.read (σ : Heap) (r : ArrRef) : List ℚ := σ.data.getD r []

/-- Allocate a fresh array, returning its (new) reference. -/
def Heap.alloc (σ : Heap) (a : List ℚ) : ArrRef × Heap :=
  (σ.data.length, ⟨σ.data ++ [a]⟩)

/-- Overwrite the array a reference points to. -/
def Heap.write (σ : Heap) (r : ArrRef) (a : List ℚ) : Heap :=
  ⟨σ.data.set r a⟩

/-- The body of h as a heap program on the array named by tRef:
ht = u_0 + (u_heater_max - u_0) / t_heater_max * t allocates a FRESH array,
and ht[t greater than t_heater_max] = u_heater_max writes in place to that
fresh array; the reference to ht is returned together with the final heap. -/
def hProg (σ : Heap) (tRef : ArrRef) : ArrRef × Heap :=
  let tArr := σ.read tRef
  let alloc1 := σ.alloc
    (tArr.map (fun ti => u_0 + (u_heater_max - u_0) / t_heater_max * ti))
  let htRef := alloc1.1
  let σ1 := alloc1.2
  let σ2 := σ1.write htRef
    (maskedFill (σ1.read htRef)
      (tArr.map (fun ti => decide (t_heater_max < ti))) u_heater_max)
  (htRef, σ2)

lemma list_getD_append {α : Type} (l l2 : List α) (d : α) (n : Nat)
    (hn : n < l.length) : (l ++ l2).getD n d = l.getD n d := by
  induction l generalizing n with
  | nil => simp at hn
  | cons a as ih =>
      cases n with
      | zero => simp
      | succ m => simpa using ih m (by simpa using hn)

lemma list_getD_append_length {α : Type} (l : List α) (a : α) (d : α) :
    (l ++ [a]).getD l.length d = a := by
  induction l with
  | nil => simp
  | cons x xs ih => simp [ih]

lemma list_set_append_length {α : Type} (l : List α) (a b : α) :
    (l ++ [a]).set l.length b = l ++ [b] := by
  induction l with
  | nil => simp
  | cons x xs ih => simp [ih]

lemma hProg_data (σ : Heap) (tRef : ArrRef) :
    (hProg σ tRef).2.data = σ.data ++ [h (σ.read tRef)] := by
  simp only [hProg, Heap.alloc, Heap.read, Heap.write]
  rw [list_getD_append_length, list_set_append_length]
  rfl

/-- Claim C7: calling h leaves its argument unchanged. For every heap and
every valid reference tRef, running the body of h mutates only the freshly
allocated result array: reading tRef afterwards gives the original array,
while the returned reference holds exactly h of that array. -/
theorem C7_h_frame (σ : Heap) (tRef : ArrRef)
    (hvalid : tRef < σ.data.length) :
    (hProg σ tRef).2.read tRef = σ.read tRef ∧
    (hProg σ tRef).2.read (hProg σ tRef).1 = h (σ.read tRef) := by
  have hdata := hProg_data σ tRef
  have hfst : (hProg σ tRef).1 = σ.data.length := rfl
  constructor
  · show ((hProg σ tRef).2.data.getD tRef []) = σ.read tRef
    rw [hdata, list_getD_append _ _ _ _ hvalid]
    rfl
  · show ((hProg σ tRef).2.data.getD (hProg σ tRef).1 []) = h (σ.read tRef)
    rw [hfst, hdata, list_getD_append_length]

/-- Witness for C7 on a concrete heap holding one array with entries 0, 10. -/
theorem C7_h_frame_witness :
    (hProg ⟨[[0, 10]]⟩ 0).2.read 0 = Heap.read ⟨[[0, 10]]⟩ 0 ∧
    (hProg ⟨[[0, 10]]⟩ 0).2.read (hProg ⟨[[0, 10]]⟩ 0).1 =
      h (Heap.read ⟨[[0, 10]]⟩ 0) :=
  C7_h_frame ⟨[[0, 10]]⟩ 0 (by decide)

/-!
Part 4: the training conditions built in the tutorials, the training
objective, and the configuration handed to the external framework.
-/

/-- The model modules defined in the tutorials: the Sequential of a
normalization layer and an FCN in the PINN tutorial, and the DeepRitzNet in
the DRM tutorial. -/
inductive ModelId
  | pinnModel
  | drmModel
deriving DecidableEq

/-- The samplers constructed for the training conditions of the tutorials. -/
inductive SamplerId
  | sampler_pde_condition
  | sampler_initial_condition
  | sampler_boundary_condition
  | bound_sampler
  | pde_sampler
deriving DecidableEq

/-- The residual and integrand functions handed to the conditions. -/
inductive ResidualId
  | residual_pde_fn
  | residual_initial_fn
  | residual_boundary_fn
  | bound_residual
  | energy_residual
deriving DecidableEq

/-- A condition of the PINN tutorial: module, sampler and residual_fn, as
passed to tp.conditions.PINNCondition. -/
structure PINNCondition where
  module : ModelId
  sampler : SamplerId
  residual_fn : ResidualId
deriving DecidableEq

/-- A condition of the DRM tutorial: module, sampler, integrand_fn and
weight, as passed to tp.conditions.DeepRitzCondition. -/
structure DeepRitzCondition where
  module : ModelId
  sampler : SamplerId
  integrand_fn : ResidualId
  weight : ℚ
deriving DecidableEq

/-- pde_condition of the PINN tutorial. -/
def pde_condition : PINNCondition :=
  ⟨.pinnModel, .sampler_pde_condition, .residual_pde_fn⟩

/-- initial_condition of the PINN tutorial. -/
def initial_condition : PINNCondition :=
  ⟨.pinnModel, .sampler_initial_condition, .residual_initial_fn⟩

/-- boundary_condition of the PINN tutorial. -/
def boundary_condition : PINNCondition :=
  ⟨.pinnModel, .sampler_boundary_condition, .residual_boundary_fn⟩

/-- The list handed to the Solver of the PINN tutorial. -/
def training_conditions : List PINNCondition :=
  [pde_condition, initial_condition, boundary_condition]

/-- bound_cond of the DRM tutorial (weight 50). -/
def bound_cond : DeepRitzCondition :=
  ⟨.drmModel, .bound_sampler, .bound_residual, 50⟩

/-- pde_cond of the DRM tutorial (weight 1.0). -/
def pde_cond : DeepRitzCondition :=
  ⟨.drmModel, .pde_sampler, .energy_residual, 1⟩

/-- The list handed to the Solver of the DRM tutorial. -/
def drmTrainConditions : List DeepRitzCondition :=
  [bound_cond, pde_cond]

/-- Modelled from the spec: the torchphysics Solver class is absent from the
supplied files (only its call sites appear). Per the spec, a PINN is a model
trained by minimizing PDE-residual and boundary/initial-condition losses
evaluated at sampled points, each condition defining one training loss term;
so the training objective is the sum, over the train_conditions handed to the
Solver, of that condition loss, where conditionLoss c is the loss of
condition c evaluated at the points produced by the sampler of c. -/
def solverObjective (conditionLoss : PINNCondition → ℚ)
    (train_conditions : List PINNCondition) : ℚ :=
  (train_conditions.map conditionLoss).sum

/-- Claim C8: the PINN tutorial training objective is exactly the sum of
three loss terms, one per condition (PDE residual, initial condition,
boundary condition), each condition carrying its own sampler; no further
loss term enters. -/
theorem C8_training_objective (conditionLoss : PINNCondition → ℚ) :
    solverObjective conditionLoss training_conditions =
      conditionLoss pde_condition + conditionLoss initial_condition +
        conditionLoss boundary_condition ∧
    training_conditions =
      [pde_condition, initial_condition, boundary_condition] ∧
    pde_condition.sampler = .sampler_pde_condition ∧
    initial_condition.sampler = .sampler_initial_condition ∧
    boundary_condition.sampler = .sampler_boundary_condition := by
  refine ⟨?_, rfl, rfl, rfl, rfl⟩
  simp [solverObjective, training_conditions]
  ring

/-- Claim C9: every condition constructed in the tutorials pairs exactly one
sampler, one model module and one residual/integrand function, and occurs
exactly once in the condition list handed to its Solver, hence defines
exactly one training loss term. -/
theorem C9_condition_pairings :
    pde_condition =
      ⟨.pinnModel, .sampler_pde_condition, .residual_pde_fn⟩ ∧
    initial_condition =
      ⟨.pinnModel, .sampler_initial_condition, .residual_initial_fn⟩ ∧
    boundary_condition =
      ⟨.pinnModel, .sampler_boundary_condition, .residual_boundary_fn⟩ ∧
    bound_cond = ⟨.drmModel, .bound_sampler, .bound_residual, 50⟩ ∧
    pde_cond = ⟨.drmModel, .pde_sampler, .energy_residual, 1⟩ ∧
    training_conditions.count pde_condition = 1 ∧
    training_conditions.count initial_condition = 1 ∧
    training_conditions.count boundary_condition = 1 ∧
    drmTrainConditions.count bound_cond = 1 ∧
    drmTrainConditions.count pde_cond = 1 := by
  refine ⟨rfl, rfl, rfl, rfl, rfl, ?_, ?_, ?_, ?_, ?_⟩ <;> decide

/-- A value passed as a keyword argument to the external framework. -/
inductive ConfigValue
  | natVal (n : Nat)
  | boolVal (b : Bool)
deriving DecidableEq

/-- The keyword arguments passed to pl.Trainer in the PINN tutorial; the
gpus and checkpoint_callback arguments are commented out and hence absent. -/
def trainerKwargs : List (String × ConfigValue) :=
  [("max_steps", .natVal 5000), ("logger", .boolVal false),
   ("benchmark", .boolVal true)]

/-- Device selection of the PINN tutorial:
1 if torch.cuda.is_available() else 0. -/
def device (cuda_available : Bool) : Nat :=
  if cuda_available then 1 else 0

/-- The CUDA_VISIBLE_DEVICES value set by the PINN tutorial. -/
def cudaVisibleDevices (cuda_available : Bool) : String :=
  if cuda_available then "1" else "0"

/-- Claim C10 as stated is false: the tutorial configures the trainer not
only through device selection and step counts; the benchmark flag (and the
logger flag) is among the trainer keyword arguments, and names neither a
device option nor a step count. -/
theorem C10_counterexample :
    ("benchmark", ConfigValue.boolVal true) ∈ trainerKwargs ∧
    "benchmark" ≠ "max_steps" ∧ "benchmark" ≠ "gpus" ∧
    "benchmark" ≠ "devices" := by
  decide

/-- Claim C10 (amended): the PINN tutorial selects device 1 exactly when
CUDA is available and device 0 otherwise, and configures the trainer with
max_steps = 5000 training steps; beyond device selection and step count it
also passes the trainer flags logger = False and benchmark = True, and it
implements no concurrency of its own. -/
theorem C10_amended_framework_config :
    device true = 1 ∧ device false = 0 ∧
    cudaVisibleDevices true = "1" ∧ cudaVisibleDevices false = "0" ∧
    trainerKwargs.lookup "max_steps" = some (.natVal 5000) ∧
    trainerKwargs =
      [("max_steps", .natVal 5000), ("logger", .boolVal false),
       ("benchmark", .boolVal true)] := by
  refine ⟨rfl, rfl, rfl, rfl, by decide, rfl⟩
